import Mathlib

/-!
# Verification of the Yukyu Pro backend

A shallow embedding of the Yukyu Pro backend (FastAPI + SQLite), covering:

* the Pydantic data model (`src/backend/src/models/__init__.py`):
  `PeriodHistory`, `Employee`, `LeaveRecord`;
* the storage schema (`src/backend/src/config/db.py`): the `employees` and
  `leave_records` tables, modelled as lists of row records;
* the employee routes (`src/backend/src/routes/employees.py`):
  `get_employees` and `sync_employees`;
* the leave-record routes (`src/backend/src/routes/records.py`):
  `get_records` and `save_record`;
* the AI analysis route (`src/backend/src/routes/ai.py`): `analyze_compliance`.

Modelling conventions:

* Python `float` columns carry no arithmetic in this code base (values are
  only copied between wire shape and storage), so floating-point values are
  modelled as `Rat`; the only numeric operations the code performs on them
  are order comparisons, which `Rat` models faithfully for every value the
  comparisons are applied to.
* JSON text blobs (`period_history`, `yukyu_dates` columns) are modelled at
  the JSON-value level by the inductive type `Json`: Python's `json.dumps`
  always emits valid JSON text and `json.loads` parses that text back to an
  equal value, so the pair is modelled as storing the value itself, with the
  SQL `NULL` written by the code modelled as `Option.none`.
* `sqlite3`'s `Cursor.execute` on an `INSERT OR REPLACE` may raise; the
  raising behaviour is modelled by an explicit oracle
  `execErr : row → Option String` (`some msg` means the statement raised an
  exception whose string form is `msg`). The schema itself
  (`config/db.py`) imposes no constraint other than the primary key, which
  `INSERT OR REPLACE` resolves by replacement, so no failure is hard-wired.
* FastAPI `response_model` validation (Pydantic parsing of the returned
  dicts) is modelled by explicit decoding functions on `Json` values.
-/

/-- JSON values, as produced by Python's `json` module: numbers are modelled
as `Rat` (covering both `int` and `float` payloads), objects as ordered
association lists (Python dicts preserve insertion order, and `json.dumps`
serialises keys in that order). -/
inductive Json where
  | null : Json
  | bool (b : Bool) : Json
  | num (q : Rat) : Json
  | str (s : String) : Json
  | arr (xs : List Json) : Json
  | obj (kvs : List (String × Json)) : Json
deriving Repr

/-- Key lookup in a JSON object, as Pydantic does when validating a dict
against a model: first binding wins. Non-objects have no keys. -/
def Json.lookupKey : Json → String → Option Json
  | .obj kvs, k => kvs.lookup k
  | _, _ => none

/-- Extract a string payload (Pydantic `str` field validation). -/
def Json.asStr : Json → Option String
  | .str s => some s
  | _ => none

/-- Extract a numeric payload (Pydantic `float` field validation). -/
def Json.asNum : Json → Option Rat
  | .num q => some q
  | _ => none

/-- Extract an integer payload (Pydantic `int` field validation: a JSON
number with no fractional part). -/
def Json.asInt : Json → Option Int
  | .num q => if q.den = 1 then some q.num else none
  | _ => none

/-- Extract a boolean payload (Pydantic `bool` field validation). -/
def Json.asBool : Json → Option Bool
  | .bool b => some b
  | _ => none

/-- Element-wise validation of a JSON array's payload, as Pydantic performs
on `List[...]` fields: every element must validate, results in order. -/
def decodeList (f : Json → Option α) : List Json → Option (List α)
  | [] => some []
  | j :: js =>
    match f j, decodeList f js with
    | some a, some as => some (a :: as)
    | _, _ => none

/-- Extract a list of strings (Pydantic `List[str]` field validation). -/
def Json.asStrList : Json → Option (List String)
  | .arr xs => decodeList Json.asStr xs
  | _ => none

/-- `PeriodHistory` Pydantic model (`src/backend/src/models/__init__.py`):
one entitlement period of an employee's leave history. -/
structure PeriodHistory where
  periodIndex : Int
  periodName : String
  elapsedMonths : Int
  yukyuStartDate : String
  grantDate : String
  expiryDate : String
  granted : Rat
  used : Rat
  balance : Rat
  expired : Rat
  isExpired : Bool
  isCurrentPeriod : Bool
  yukyuDates : List String
  source : String
  syncedAt : String
deriving Repr, DecidableEq

/-- `Employee` Pydantic model (`src/backend/src/models/__init__.py`): wire
shape of an employee record. Field aliases (`employeeNum` for
`employee_num`, `usageRate` for `usage_rate`) only affect JSON key names,
which the embedding handles at the points where dicts are built. -/
structure Employee where
  id : String
  employee_num : String
  name : String
  haken : Option String
  granted : Rat
  used : Rat
  balance : Rat
  usage_rate : Rat
  year : Int
  periodHistory : Option (List PeriodHistory)
  yukyuDates : Option (List String)
deriving Repr, DecidableEq

/-- `LeaveRecord` Pydantic model (`src/backend/src/models/__init__.py`). -/
structure LeaveRecord where
  id : String
  employeeId : String
  date : String
  type : String
  duration : String
  note : Option String
  status : String
  createdAt : String
deriving Repr, DecidableEq

/-- `p.dict()` followed by `json.dumps`, at the JSON-value level: the dict
of a `PeriodHistory` model, keys in field-declaration order. -/
def PeriodHistory.toJson (p : PeriodHistory) : Json :=
  .obj [
    ("periodIndex", .num p.periodIndex),
    ("periodName", .str p.periodName),
    ("elapsedMonths", .num p.elapsedMonths),
    ("yukyuStartDate", .str p.yukyuStartDate),
    ("grantDate", .str p.grantDate),
    ("expiryDate", .str p.expiryDate),
    ("granted", .num p.granted),
    ("used", .num p.used),
    ("balance", .num p.balance),
    ("expired", .num p.expired),
    ("isExpired", .bool p.isExpired),
    ("isCurrentPeriod", .bool p.isCurrentPeriod),
    ("yukyuDates", .arr (p.yukyuDates.map Json.str)),
    ("source", .str p.source),
    ("syncedAt", .str p.syncedAt)]

/-- Pydantic validation of a JSON value against the `PeriodHistory` model
(as FastAPI's `response_model=List[Employee]` performs on the nested
`periodHistory` entries): every declared field is looked up by name and
validated at its declared type. -/
def PeriodHistory.fromJson (j : Json) : Option PeriodHistory := do
  let periodIndex ← (j.lookupKey "periodIndex").bind Json.asInt
  let periodName ← (j.lookupKey "periodName").bind Json.asStr
  let elapsedMonths ← (j.lookupKey "elapsedMonths").bind Json.asInt
  let yukyuStartDate ← (j.lookupKey "yukyuStartDate").bind Json.asStr
  let grantDate ← (j.lookupKey "grantDate").bind Json.asStr
  let expiryDate ← (j.lookupKey "expiryDate").bind Json.asStr
  let granted ← (j.lookupKey "granted").bind Json.asNum
  let used ← (j.lookupKey "used").bind Json.asNum
  let balance ← (j.lookupKey "balance").bind Json.asNum
  let expired ← (j.lookupKey "expired").bind Json.asNum
  let isExpired ← (j.lookupKey "isExpired").bind Json.asBool
  let isCurrentPeriod ← (j.lookupKey "isCurrentPeriod").bind Json.asBool
  let yukyuDates ← (j.lookupKey "yukyuDates").bind Json.asStrList
  let source ← (j.lookupKey "source").bind Json.asStr
  let syncedAt ← (j.lookupKey "syncedAt").bind Json.asStr
  pure { periodIndex, periodName, elapsedMonths, yukyuStartDate, grantDate,
         expiryDate, granted, used, balance, expired, isExpired,
         isCurrentPeriod, yukyuDates, source, syncedAt }

/-- Pydantic validation of the `periodHistory` entry of a GET
/api/employees response element against `List[PeriodHistory]`, as
FastAPI's `response_model=List[Employee]` performs. -/
def decodePeriodHistories : Json → Option (List PeriodHistory)
  | .arr xs => decodeList PeriodHistory.fromJson xs
  | _ => none

/-! ## Storage model (`src/backend/src/config/db.py`)

The two tables created by `init_db`. A table is modelled as the list of its
rows in storage order; the only constraint in the schema is the primary key
on `id`, which `INSERT OR REPLACE` resolves by deleting the conflicting row
and inserting the new one. -/

/-- A row of the `employees` table (`CREATE TABLE employees` in
`config/db.py`). `period_history` and `yukyu_dates` are TEXT columns
holding JSON text or NULL, modelled at the JSON-value level. -/
structure EmployeeRow where
  id : String
  employee_num : String
  name : String
  haken : Option String
  granted : Rat
  used : Rat
  balance : Rat
  usage_rate : Rat
  year : Int
  period_history : Option Json
  yukyu_dates : Option Json
  last_updated : String
deriving Repr

/-- A row of the `leave_records` table (`CREATE TABLE leave_records` in
`config/db.py`). -/
structure LeaveRecordRow where
  id : String
  employee_id : String
  date : String
  type : String
  duration : String
  note : Option String
  status : String
  created_at : String
deriving Repr, DecidableEq

/-- The `employees` table. -/
abbrev EmployeesTable := List EmployeeRow

/-- The `leave_records` table. -/
abbrev LeaveRecordsTable := List LeaveRecordRow

/-! ## Employee routes (`src/backend/src/routes/employees.py`) -/

/-- `json.dumps([p.dict() for p in emp.periodHistory]) if emp.periodHistory
else None`: Python truthiness maps both `None` and the empty list to SQL
`NULL`; a truthy (non-empty) list is serialised to a JSON array of the
period dicts. -/
def Employee.phJson (emp : Employee) : Option Json :=
  match emp.periodHistory with
  | some phs =>
    if phs.isEmpty then none else some (.arr (phs.map PeriodHistory.toJson))
  | none => none

/-- `json.dumps(emp.yukyuDates) if emp.yukyuDates else None`: same truthiness
convention for the date-string list. -/
def Employee.ydJson (emp : Employee) : Option Json :=
  match emp.yukyuDates with
  | some yds => if yds.isEmpty then none else some (.arr (yds.map Json.str))
  | none => none

/-- The row bound by one iteration of the `sync_employees` insert loop:
the employee's flattened columns plus the batch's shared `last_updated`
timestamp. -/
def employeeToRow (ts : String) (emp : Employee) : EmployeeRow :=
  { id := emp.id, employee_num := emp.employee_num, name := emp.name,
    haken := emp.haken, granted := emp.granted, used := emp.used,
    balance := emp.balance, usage_rate := emp.usage_rate, year := emp.year,
    period_history := emp.phJson, yukyu_dates := emp.ydJson,
    last_updated := ts }

/-- `INSERT OR REPLACE INTO employees ...`: SQLite deletes any existing row
with the same primary key and appends the new row. -/
def upsertEmployee (db : EmployeesTable) (r : EmployeeRow) : EmployeesTable :=
  db.filter (fun x => x.id != r.id) ++ [r]

/-- Response of POST /api/employees: `{"status": "success", "count": n}` on
commit, or `HTTPException(status_code=500, detail=...)` on rollback. -/
inductive SyncResponse where
  | success (count : Nat)
  | serverError (detail : String)
deriving Repr, DecidableEq

/-- The `for emp in employees: c.execute(...)` loop of `sync_employees`,
acting on the connection's uncommitted view of the table. `execErr` is the
exception oracle for the sqlite3 statement execution: `some msg` means the
statement raised an exception whose `str` form is `msg`, aborting the loop
there; `none` means the row was written. -/
def syncLoop (execErr : EmployeeRow → Option String) (ts : String) :
    List Employee → EmployeesTable → Except String EmployeesTable
  | [], db => .ok db
  | emp :: emps, db =>
    let r := employeeToRow ts emp
    match execErr r with
    | some msg => .error msg
    | none => syncLoop execErr ts emps (upsertEmployee db r)

/-- `sync_employees` (POST /api/employees): a single server timestamp `ts`
(`datetime.now().isoformat()`) is shared by the batch; the insert loop runs
inside one transaction, `conn.commit()` on success, `conn.rollback()` plus
`HTTPException(500, detail=str(e))` on any exception. Returns the table
after the call together with the response. -/
def sync_employees (execErr : EmployeeRow → Option String) (ts : String)
    (employees : List Employee) (db : EmployeesTable) :
    EmployeesTable × SyncResponse :=
  match syncLoop execErr ts employees db with
  | .ok db' => (db', .success employees.length)
  | .error msg => (db, .serverError msg)

/-- One element of the GET /api/employees response: the dict built by
`get_employees` from a row, before FastAPI's response-model validation.
`periodHistory`/`yukyuDates` hold `json.loads` of the blob when the TEXT
column is truthy, and the literal Python `[]` otherwise. -/
structure WireEmployee where
  id : String
  employeeNum : String
  name : String
  haken : Option String
  granted : Rat
  used : Rat
  balance : Rat
  usageRate : Rat
  year : Int
  periodHistory : Json
  yukyuDates : Json
deriving Repr

/-- The dict built for one row in the `get_employees` loop. -/
def rowToWire (r : EmployeeRow) : WireEmployee :=
  { id := r.id, employeeNum := r.employee_num, name := r.name,
    haken := r.haken, granted := r.granted, used := r.used,
    balance := r.balance, usageRate := r.usage_rate, year := r.year,
    periodHistory := r.period_history.getD (.arr []),
    yukyuDates := r.yukyu_dates.getD (.arr []) }

/-- `get_employees` (GET /api/employees): `SELECT * FROM employees`, one
response dict per row, in table order. -/
def get_employees (db : EmployeesTable) : List WireEmployee :=
  db.map rowToWire

/-- The last record of a batch carrying a given `id` (the one whose
`INSERT OR REPLACE` wins for that primary key). -/
def lastWithId (i : String) (emps : List Employee) : Option Employee :=
  (emps.filter (fun e => e.id == i)).getLast?

/-! ## Leave-record routes (`src/backend/src/routes/records.py`) -/

/-- The row bound by the `INSERT OR REPLACE INTO leave_records` statement
of `save_record`. -/
def recordToRow (record : LeaveRecord) : LeaveRecordRow :=
  { id := record.id, employee_id := record.employeeId, date := record.date,
    type := record.type, duration := record.duration, note := record.note,
    status := record.status, created_at := record.createdAt }

/-- `INSERT OR REPLACE INTO leave_records ...`. -/
def upsertLeaveRecord (db : LeaveRecordsTable) (r : LeaveRecordRow) :
    LeaveRecordsTable :=
  db.filter (fun x => x.id != r.id) ++ [r]

/-- Response of POST /api/records: `{"status": "success"}` on commit, or
`HTTPException(status_code=500, detail=...)` on rollback. -/
inductive SaveResponse where
  | success
  | serverError (detail : String)
deriving Repr, DecidableEq

/-- `save_record` (POST /api/records): single-statement transaction with
the same commit/rollback discipline as `sync_employees`; `execErr` is the
sqlite3 exception oracle. The route never consults the `employees` table. -/
def save_record (execErr : LeaveRecordRow → Option String)
    (record : LeaveRecord) (db : LeaveRecordsTable) :
    LeaveRecordsTable × SaveResponse :=
  let r := recordToRow record
  match execErr r with
  | some msg => (db, .serverError msg)
  | none => (upsertLeaveRecord db r, .success)

/-- `dict(row)` for a `leave_records` row: keys are the column names of the
schema (snake_case), `None` becoming JSON null. -/
def LeaveRecordRow.toDict (r : LeaveRecordRow) : Json :=
  .obj [
    ("id", .str r.id),
    ("employee_id", .str r.employee_id),
    ("date", .str r.date),
    ("type", .str r.type),
    ("duration", .str r.duration),
    ("note", match r.note with | some s => .str s | none => .null),
    ("status", .str r.status),
    ("created_at", .str r.created_at)]

/-- Pydantic validation of one response dict against the `LeaveRecord`
model, as FastAPI's `response_model=List[LeaveRecord]` performs: the model
declares no aliases, so every required field is looked up under its field
name; the optional `note` defaults to `None` when absent or null. -/
def LeaveRecord.fromDict (j : Json) : Option LeaveRecord := do
  let id ← (j.lookupKey "id").bind Json.asStr
  let employeeId ← (j.lookupKey "employeeId").bind Json.asStr
  let date ← (j.lookupKey "date").bind Json.asStr
  let type ← (j.lookupKey "type").bind Json.asStr
  let duration ← (j.lookupKey "duration").bind Json.asStr
  let note := match j.lookupKey "note" with
    | some (.str s) => some s
    | _ => none
  let status ← (j.lookupKey "status").bind Json.asStr
  let createdAt ← (j.lookupKey "createdAt").bind Json.asStr
  pure { id, employeeId, date, type, duration, note, status, createdAt }

/-- `get_records` (GET /api/records): `SELECT * FROM leave_records`, the
route returns `[dict(row) for row in rows]` and FastAPI validates that list
against `response_model=List[LeaveRecord]`; `none` models the
response-validation failure (surfaced as an HTTP 500 to the caller). -/
def get_records (db : LeaveRecordsTable) : Option (List LeaveRecord) :=
  decodeList LeaveRecord.fromDict (db.map LeaveRecordRow.toDict)

/-! ## AI analysis route (`src/backend/src/routes/ai.py`) -/

/-- One employee summary dict from the `/analyze` request body's
`employees` list; every field is read with `.get`, so each is optional.
Numeric payloads are modelled as `Rat`. -/
structure EmpSummary where
  status : Option String
  grantedTotal : Option Rat
  usedTotal : Option Rat
  name : Option String
deriving Repr, DecidableEq

/-- The at-risk predicate of the `risk_employees` comprehension:
`e.get("status") == "在職中" and e.get("grantedTotal", 0) >= 10 and
e.get("usedTotal", 0) < 5`. -/
def isRiskEmployee (e : EmpSummary) : Bool :=
  e.status == some "在職中"
    && decide (10 ≤ e.grantedTotal.getD 0)
    && decide (e.usedTotal.getD 0 < 5)

/-- `risk_employees`: the at-risk sub-list, in order. -/
def riskEmployees (employees : List EmpSummary) : List EmpSummary :=
  employees.filter isRiskEmployee

/-- Python `str(...)` of an optional string as an f-string fragment:
`None` prints as `"None"`. -/
def pyOptStr : Option String → String
  | some s => s
  | none => "None"

/-- Python `str(...)` of an optional number as an f-string fragment; the
exact decimal rendering of a float is abstracted as the `Rat` rendering
(no claim depends on the prompt's digits). -/
def pyOptRat : Option Rat → String
  | some q => toString q
  | none => "None"

/-- The prompt f-string of `analyze_compliance`: total head-count, at-risk
count, and `name: usedTotal日` lines for the first 10 at-risk employees. -/
def analysisPrompt (employees : List EmpSummary) : String :=
  "\n    日本の労働基準法（年5日有給休暇取得義務化）に基づき、以下のデータを分析してください。\n    従業員総数: "
    ++ toString employees.length
    ++ "\n    法的リスク対象: " ++ toString (riskEmployees employees).length
    ++ "名\n    "
    ++ String.intercalate "\n"
        (((riskEmployees employees).take 10).map
          (fun e => pyOptStr e.name ++ ": " ++ pyOptRat e.usedTotal ++ "日"))
    ++ "\n\n    3つのインサイト（法的コンプライアンス警告、具体的アクションプラン、ポジティブな予測）を日本語のJSON形式で返してください。\n    "

/-- `client = genai.Client(api_key=GEMINI_API_KEY) if GEMINI_API_KEY else
None`: a client exists iff the environment variable is set to a truthy
(non-empty) string; `if not client` then takes the static-info branch. -/
def clientConfigured : Option String → Bool
  | some key => !key.isEmpty
  | none => false

/-- The static item returned when no credential is configured. -/
def analyzeInfoItem : Json :=
  .obj [
    ("title", .str "AI分析未設定"),
    ("description", .str "GEMINI_API_KEYがバックエンドで設定されていません。"),
    ("type", .str "info")]

/-- The static item returned when the provider call (or the parse of its
text) raises, embedding the exception message. -/
def analyzeWarningItem (msg : String) : Json :=
  .obj [
    ("title", .str "法的分析オフライン"),
    ("description", .str ("AIエラー: " ++ msg)),
    ("type", .str "warning")]

/-- Result of one POST /api/analyze call: the JSON response body and
whether `client.models.generate_content` was attempted. -/
structure AnalyzeOutcome where
  body : Json
  providerCalled : Bool
deriving Repr

/-- `analyze_compliance` (POST /api/analyze). `employees` is
`data.get("employees", [])` (an absent key yields the empty list).
`provider` models `client.models.generate_content` on the prompt followed
by `json.loads(response.text)`: `.ok j` is a successful round trip whose
text parses to `j`, returned to the caller verbatim; `.error msg` is any
exception raised by the call or the parse, caught and converted to the
static warning item. -/
def analyze_compliance (apiKey : Option String) (employees : List EmpSummary)
    (provider : String → Except String Json) : AnalyzeOutcome :=
  if !clientConfigured apiKey then
    { body := .arr [analyzeInfoItem], providerCalled := false }
  else if employees.isEmpty then
    { body := .arr [], providerCalled := false }
  else
    match provider (analysisPrompt employees) with
    | .ok j => { body := j, providerCalled := true }
    | .error msg => { body := .arr [analyzeWarningItem msg], providerCalled := true }

/-! ## Concrete fixtures

Concrete values used to instantiate the theorems below on executable
inputs. -/

/-- An employee with no nested history (both blobs NULL). -/
def empA : Employee :=
  { id := "E1", employee_num := "001", name := "Tanaka", haken := none,
    granted := 12, used := 2, balance := 10, usage_rate := 17, year := 2025,
    periodHistory := none, yukyuDates := none }

/-- A sample period-history entry. -/
def phA : PeriodHistory :=
  { periodIndex := 1, periodName := "第1期", elapsedMonths := 6,
    yukyuStartDate := "2025-04-01", grantDate := "2025-04-01",
    expiryDate := "2027-03-31", granted := 10, used := 2, balance := 8,
    expired := 0, isExpired := false, isCurrentPeriod := true,
    yukyuDates := ["2025-05-01"], source := "sync",
    syncedAt := "2025-10-01T00:00:00" }

/-- An employee with non-empty `periodHistory` and `yukyuDates`. -/
def empB : Employee :=
  { id := "E2", employee_num := "002", name := "Suzuki",
    haken := some "ABC派遣", granted := 10, used := 2, balance := 8,
    usage_rate := 20, year := 2025, periodHistory := some [phA],
    yukyuDates := some ["2025-05-01"] }

/-- An exception oracle that makes the insert of row `E1` raise. -/
def failOnE1 : EmployeeRow → Option String :=
  fun r => if r.id == "E1" then some "disk I/O error" else none

/-- A leave record whose `employeeId` matches no employee row. -/
def orphanRecord : LeaveRecord :=
  { id := "r1", employeeId := "ghost", date := "2026-01-01", type := "full",
    duration := "1.0", note := none, status := "approved",
    createdAt := "2026-01-01T00:00:00" }

/-- The first summary of the spec's analysis-threshold example. -/
def riskyEmp : EmpSummary :=
  { status := some "在職中", grantedTotal := some 12, usedTotal := some 2,
    name := none }

/-- The second summary of the spec's analysis-threshold example. -/
def retiredEmp : EmpSummary :=
  { status := some "退職", grantedTotal := some 12, usedTotal := some 0,
    name := none }

/-- A currently-employed summary with no `grantedTotal` key. -/
def sEmpNoGranted : EmpSummary :=
  { status := some "在職中", grantedTotal := none, usedTotal := some 0,
    name := none }

/-- A currently-employed summary with `grantedTotal` 12 and no `usedTotal`
key. -/
def sEmpNoUsed : EmpSummary :=
  { status := some "在職中", grantedTotal := some 12, usedTotal := none,
    name := none }

/-- A summary with no status key. -/
def sEmpNoStatus : EmpSummary :=
  { status := none, grantedTotal := some 12, usedTotal := some 0,
    name := none }

/-! ## Helper lemmas -/

theorem decodeList_map (f : Json → Option α) (g : α → Json)
    (hfg : ∀ a, f (g a) = some a) (l : List α) :
    decodeList f (l.map g) = some l := by
  induction l with
  | nil => rfl
  | cons x xs ih => simp [decodeList, hfg, ih]

theorem PeriodHistory.fromJson_toJson (p : PeriodHistory) :
    PeriodHistory.fromJson p.toJson = some p := by
  simp [PeriodHistory.fromJson, PeriodHistory.toJson, Json.lookupKey,
    List.lookup, Json.asInt, Json.asStr, Json.asNum, Json.asBool,
    Json.asStrList, Option.bind, decodeList_map Json.asStr Json.str]

theorem filter_map_rowToWire (db : EmployeesTable) (i : String) :
    (db.map rowToWire).filter (fun w => w.id == i)
      = (db.filter (fun r => r.id == i)).map rowToWire := by
  induction db with
  | nil => rfl
  | cons r l ih =>
    by_cases h : r.id = i <;>
      simp [rowToWire, List.filter_cons, h, ih]

theorem filter_upsert_eq (db : EmployeesTable) (r : EmployeeRow) (i : String)
    (h : r.id = i) :
    (upsertEmployee db r).filter (fun x => x.id == i) = [r] := by
  subst h
  unfold upsertEmployee
  rw [List.filter_append, List.filter_filter]
  have h1 : ∀ x : EmployeeRow, ((x.id == r.id) && (x.id != r.id)) = false := by
    intro x; by_cases hx : x.id = r.id <;> simp [hx, bne]
  have h2 : ∀ x : EmployeeRow, ((x.id != r.id) && (x.id == r.id)) = false := by
    intro x; by_cases hx : x.id = r.id <;> simp [hx, bne]
  simp [h1, h2]

theorem filter_upsert_ne (db : EmployeesTable) (r : EmployeeRow) (i : String)
    (h : ¬ r.id = i) :
    (upsertEmployee db r).filter (fun x => x.id == i)
      = db.filter (fun x => x.id == i) := by
  unfold upsertEmployee
  rw [List.filter_append, List.filter_filter]
  have h1 : List.filter (fun x : EmployeeRow => x.id == i) [r] = [] := by
    simp [List.filter_cons, h]
  rw [h1, List.append_nil]
  refine List.filter_congr ?_
  intro x _
  by_cases hx : x.id = i
  · have hir : ¬ i = r.id := fun hc => h hc.symm
    simp [hx, bne, hir]
  · simp [hx]

theorem employeeToRow_id (ts : String) (e : Employee) :
    (employeeToRow ts e).id = e.id := rfl

theorem filter_foldl_upsert (ts : String) (i : String)
    (emps : List Employee) (db : EmployeesTable) :
    ((emps.foldl (fun d e => upsertEmployee d (employeeToRow ts e)) db).filter
        (fun x => x.id == i))
      = match lastWithId i emps with
        | some e => [employeeToRow ts e]
        | none => db.filter (fun x => x.id == i) := by
  induction emps using List.reverseRecOn generalizing db with
  | nil => simp [lastWithId]
  | append_singleton es e ih =>
    rw [List.foldl_append]
    simp only [List.foldl_cons, List.foldl_nil]
    by_cases he : e.id = i
    · rw [filter_upsert_eq _ _ _ (by rw [employeeToRow_id]; exact he)]
      have hl : lastWithId i (es ++ [e]) = some e := by
        simp [lastWithId, List.filter_append, List.filter_cons, he,
          List.getLast?_concat]
      rw [hl]
    · rw [filter_upsert_ne _ _ _ (by rw [employeeToRow_id]; exact he), ih]
      have hl : lastWithId i (es ++ [e]) = lastWithId i es := by
        simp [lastWithId, List.filter_append, List.filter_cons, he]
      rw [hl]

theorem syncLoop_ok (execErr : EmployeeRow → Option String) (ts : String) :
    ∀ (emps : List Employee) (db : EmployeesTable),
    (∀ e ∈ emps, execErr (employeeToRow ts e) = none) →
    syncLoop execErr ts emps db
      = .ok (emps.foldl (fun d e => upsertEmployee d (employeeToRow ts e)) db) := by
  intro emps
  induction emps with
  | nil => intro db _; rfl
  | cons e es ih =>
    intro db h
    have he : execErr (employeeToRow ts e) = none := h e (by simp)
    simp only [syncLoop, he, List.foldl_cons]
    exact ih _ (fun f hf => h f (List.mem_cons_of_mem _ hf))

theorem syncLoop_error (execErr : EmployeeRow → Option String) (ts : String) :
    ∀ (emps : List Employee) (db : EmployeesTable),
    (∃ e ∈ emps, execErr (employeeToRow ts e) ≠ none) →
    ∃ msg, syncLoop execErr ts emps db = .error msg
      ∧ ∃ e ∈ emps, execErr (employeeToRow ts e) = some msg := by
  intro emps
  induction emps with
  | nil => rintro db ⟨e, he, -⟩; simp at he
  | cons e es ih =>
    rintro db ⟨f, hf, hfe⟩
    cases hexec : execErr (employeeToRow ts e) with
    | some msg =>
      exact ⟨msg, by simp [syncLoop, hexec], e, by simp, hexec⟩
    | none =>
      have hes : ∃ g ∈ es, execErr (employeeToRow ts g) ≠ none := by
        rcases List.mem_cons.mp hf with h | h
        · exact absurd hexec (h ▸ hfe)
        · exact ⟨f, h, hfe⟩
      obtain ⟨msg, hrun, g, hg, hge⟩ :=
        ih (upsertEmployee db (employeeToRow ts e)) hes
      exact ⟨msg, by simp [syncLoop, hexec, hrun],
        g, List.mem_cons_of_mem _ hg, hge⟩

/-! ## Claim theorems -/

/-- C9: calling `sync_employees` with an empty batch succeeds, returns
`{"status": "success", "count": 0}`, and leaves every row of the employees
table unchanged. -/
theorem sync_empty_batch_noop (execErr : EmployeeRow → Option String)
    (ts : String) (db : EmployeesTable) :
    sync_employees execErr ts [] db = (db, .success 0) := rfl

/-- C2: if persisting any record of a batch fails during `sync_employees`,
no record of the batch is persisted — the employees table is left exactly
as it was before the call — and the call fails with a server error carrying
the underlying failure message. -/
theorem sync_batch_all_or_nothing (execErr : EmployeeRow → Option String)
    (ts : String) (emps : List Employee) (db : EmployeesTable)
    (hfail : ∃ e ∈ emps, execErr (employeeToRow ts e) ≠ none) :
    (sync_employees execErr ts emps db).1 = db
    ∧ ∃ msg, (sync_employees execErr ts emps db).2 = .serverError msg
        ∧ ∃ e ∈ emps, execErr (employeeToRow ts e) = some msg := by
  obtain ⟨msg, hrun, e, he, hee⟩ := syncLoop_error execErr ts emps db hfail
  exact ⟨by simp [sync_employees, hrun], msg, by simp [sync_employees, hrun],
    e, he, hee⟩

theorem sync_batch_all_or_nothing_witness :
    (sync_employees failOnE1 "2026-10-12T00:00:00" [empA] []).1 = []
    ∧ ∃ msg,
        (sync_employees failOnE1 "2026-10-12T00:00:00" [empA] []).2
          = .serverError msg
        ∧ ∃ e ∈ [empA],
            failOnE1 (employeeToRow "2026-10-12T00:00:00" e) = some msg :=
  sync_batch_all_or_nothing failOnE1 "2026-10-12T00:00:00" [empA] []
    ⟨empA, by simp, by simp [failOnE1, employeeToRow, empA]⟩

/-- C3: syncing the same batch twice (both syncs succeeding) leaves exactly
one employees row per id occurring in the batch; that row's columns are the
flattened values from the second call — for the last batch record carrying
that id — and its `last_updated` is the second call's shared timestamp. -/
theorem sync_twice_one_row_per_id (execErr : EmployeeRow → Option String)
    (ts1 ts2 : String) (emps : List Employee) (db : EmployeesTable)
    (h1 : ∀ e ∈ emps, execErr (employeeToRow ts1 e) = none)
    (h2 : ∀ e ∈ emps, execErr (employeeToRow ts2 e) = none) :
    ∀ e ∈ emps, ∃ e', lastWithId e.id emps = some e'
      ∧ ((sync_employees execErr ts2 emps
            (sync_employees execErr ts1 emps db).1).1.filter
          (fun r => r.id == e.id)) = [employeeToRow ts2 e']
      ∧ (employeeToRow ts2 e').last_updated = ts2 := by
  intro e he
  have hmem : e ∈ emps.filter (fun f => f.id == e.id) :=
    List.mem_filter.mpr ⟨he, by simp⟩
  obtain ⟨e', he'⟩ : ∃ e', lastWithId e.id emps = some e' := by
    cases hcase : lastWithId e.id emps with
    | none =>
      exact absurd (List.getLast?_eq_none_iff.mp hcase)
        (List.ne_nil_of_mem hmem)
    | some x => exact ⟨x, rfl⟩
  refine ⟨e', he', ?_, rfl⟩
  have hs1 : (sync_employees execErr ts1 emps db).1
      = emps.foldl (fun d f => upsertEmployee d (employeeToRow ts1 f)) db := by
    simp [sync_employees, syncLoop_ok execErr ts1 emps db h1]
  rw [hs1]
  have hs2 : (sync_employees execErr ts2 emps
        (emps.foldl (fun d f => upsertEmployee d (employeeToRow ts1 f)) db)).1
      = emps.foldl (fun d f => upsertEmployee d (employeeToRow ts2 f))
          (emps.foldl (fun d f => upsertEmployee d (employeeToRow ts1 f)) db) := by
    simp [sync_employees, syncLoop_ok execErr ts2 emps _ h2]
  rw [hs2, filter_foldl_upsert, he']

theorem sync_twice_one_row_per_id_witness :
    ∃ e', lastWithId empA.id [empA, empB] = some e'
      ∧ ((sync_employees (fun _ => none) "T2" [empA, empB]
            (sync_employees (fun _ => none) "T1" [empA, empB] []).1).1.filter
          (fun r => r.id == empA.id)) = [employeeToRow "T2" e']
      ∧ (employeeToRow "T2" e').last_updated = "T2" :=
  sync_twice_one_row_per_id (fun _ => none) "T1" "T2" [empA, empB] []
    (fun _ _ => rfl) (fun _ _ => rfl) empA (by simp)

/-- C1: syncing an employee whose `periodHistory` and `yukyuDates` are both
non-empty and then listing employees returns that employee (exactly one
response entry carries its id); its `periodHistory` is the JSON array of
the synced periods in order — validating back to exactly the synced
sequence — and its `yukyuDates` is the JSON array of the synced date
strings in order. -/
theorem sync_then_list_roundtrip (execErr : EmployeeRow → Option String)
    (ts : String) (db : EmployeesTable) (emp : Employee)
    (phs : List PeriodHistory) (yds : List String)
    (hph : emp.periodHistory = some phs) (hphne : phs ≠ [])
    (hyd : emp.yukyuDates = some yds) (hydne : yds ≠ [])
    (hok : execErr (employeeToRow ts emp) = none) :
    (sync_employees execErr ts [emp] db).2 = .success 1
    ∧ ∃ w, (get_employees (sync_employees execErr ts [emp] db).1).filter
          (fun w' => w'.id == emp.id) = [w]
        ∧ w.periodHistory = Json.arr (phs.map PeriodHistory.toJson)
        ∧ decodePeriodHistories w.periodHistory = some phs
        ∧ w.yukyuDates = Json.arr (yds.map Json.str)
        ∧ Json.asStrList w.yukyuDates = some yds := by
  have hphe : phs.isEmpty = false := by
    cases phs with
    | nil => exact absurd rfl hphne
    | cons x xs => rfl
  have hyde : yds.isEmpty = false := by
    cases yds with
    | nil => exact absurd rfl hydne
    | cons x xs => rfl
  have hrun : syncLoop execErr ts [emp] db
      = .ok (upsertEmployee db (employeeToRow ts emp)) := by
    simp [syncLoop, hok]
  have hphJ : emp.phJson = some (.arr (phs.map PeriodHistory.toJson)) := by
    simp [Employee.phJson, hph, hphe]
  have hydJ : emp.ydJson = some (.arr (yds.map Json.str)) := by
    simp [Employee.ydJson, hyd, hyde]
  refine ⟨by simp [sync_employees, hrun],
    rowToWire (employeeToRow ts emp), ?_, ?_, ?_, ?_, ?_⟩
  · have hdb : (sync_employees execErr ts [emp] db).1
        = upsertEmployee db (employeeToRow ts emp) := by
      simp [sync_employees, hrun]
    rw [hdb]
    unfold get_employees
    rw [filter_map_rowToWire, filter_upsert_eq _ _ _ (employeeToRow_id ts emp)]
    rfl
  · simp [rowToWire, employeeToRow, hphJ]
  · simp [rowToWire, employeeToRow, hphJ, decodePeriodHistories,
      decodeList_map PeriodHistory.fromJson PeriodHistory.toJson
        PeriodHistory.fromJson_toJson]
  · simp [rowToWire, employeeToRow, hydJ]
  · simp only [rowToWire, employeeToRow, hydJ, Json.asStrList,
      Option.getD_some]
    exact decodeList_map Json.asStr Json.str (fun a => rfl) yds

theorem sync_then_list_roundtrip_witness :
    (sync_employees (fun _ => none) "T" [empB] []).2 = .success 1
    ∧ ∃ w, (get_employees (sync_employees (fun _ => none) "T" [empB] []).1).filter
          (fun w' => w'.id == empB.id) = [w]
        ∧ w.periodHistory = Json.arr ([phA].map PeriodHistory.toJson)
        ∧ decodePeriodHistories w.periodHistory = some [phA]
        ∧ w.yukyuDates = Json.arr (["2025-05-01"].map Json.str)
        ∧ Json.asStrList w.yukyuDates = some ["2025-05-01"] :=
  sync_then_list_roundtrip (fun _ => none) "T" [] empB [phA] ["2025-05-01"]
    rfl (by simp) rfl (by simp) rfl

theorem LeaveRecord.fromDict_toDict_none (r : LeaveRecordRow) :
    LeaveRecord.fromDict r.toDict = none := by
  simp [LeaveRecord.fromDict, LeaveRecordRow.toDict, Json.lookupKey,
    List.lookup, Json.asStr, Option.bind]

theorem get_records_nonempty_none (r : LeaveRecordRow)
    (l : LeaveRecordsTable) : get_records (r :: l) = none := by
  simp [get_records, decodeList, LeaveRecord.fromDict_toDict_none]

/-- C5 (refuted by the code): saving a leave record whose `employeeId`
matches no employee row succeeds and persists the row, but the subsequent
GET /api/records does not return the record: the response dicts carry the
snake_case column keys `employee_id`/`created_at`, which never satisfy the
`LeaveRecord` response model's `employeeId`/`createdAt` fields, so response
validation fails (an HTTP 500) for any non-empty table. -/
theorem save_orphan_then_list_fails :
    (save_record (fun _ => none) orphanRecord []).2 = .success
    ∧ (save_record (fun _ => none) orphanRecord []).1
        = [recordToRow orphanRecord]
    ∧ (∀ r ∈ ([] : EmployeesTable), ¬ r.id = orphanRecord.employeeId)
    ∧ get_records (save_record (fun _ => none) orphanRecord []).1 = none := by
  refine ⟨rfl, rfl, by simp, ?_⟩
  exact get_records_nonempty_none _ _

/-- C7: with no AI credential configured, POST /api/analyze returns exactly
one item, whose `type` field is `"info"`, and never attempts the provider
call. -/
theorem analyze_no_credential (apiKey : Option String)
    (employees : List EmpSummary) (provider : String → Except String Json)
    (h : clientConfigured apiKey = false) :
    analyze_compliance apiKey employees provider
      = { body := .arr [analyzeInfoItem], providerCalled := false }
    ∧ analyzeInfoItem.lookupKey "type" = some (.str "info") := by
  exact ⟨by simp [analyze_compliance, h], rfl⟩

theorem analyze_no_credential_witness :
    analyze_compliance none [riskyEmp] (fun _ => Except.ok Json.null)
      = { body := .arr [analyzeInfoItem], providerCalled := false }
    ∧ analyzeInfoItem.lookupKey "type" = some (.str "info") :=
  analyze_no_credential none [riskyEmp] (fun _ => Except.ok Json.null) rfl

/-- C6 as stated is false on the code: a request with body
`{employees: []}` arriving when no credential is configured is answered
with the single static info item, not the empty sequence. -/
theorem analyze_empty_counterexample :
    (analyze_compliance none [] (fun _ => Except.ok Json.null)).body
      ≠ Json.arr [] := by
  simp [analyze_compliance, clientConfigured]

/-- C6 amended: with a credential configured, a request whose body is
`{employees: []}` is answered with the empty sequence. -/
theorem analyze_empty_with_credential (apiKey : Option String)
    (provider : String → Except String Json)
    (h : clientConfigured apiKey = true) :
    (analyze_compliance apiKey [] provider).body = .arr [] := by
  simp [analyze_compliance, h]

theorem analyze_empty_with_credential_witness :
    (analyze_compliance (some "k") [] (fun _ => Except.ok Json.null)).body
      = .arr [] :=
  analyze_empty_with_credential (some "k") (fun _ => Except.ok Json.null) rfl

/-- C8 as stated is false on the code: the handler returns the provider's
parsed JSON verbatim, enforcing neither the three-item bound nor the
`{title, description, type}` shape — a provider response of four bare
numbers reaches the caller unchanged. -/
theorem analyze_shape_counterexample :
    ∃ xs, (analyze_compliance (some "k") [riskyEmp]
        (fun _ => Except.ok (Json.arr [.num 1, .num 2, .num 3, .num 4]))).body
          = Json.arr xs
      ∧ 3 < xs.length :=
  ⟨[.num 1, .num 2, .num 3, .num 4], rfl, by norm_num⟩

/-- C8 amended: with a credential configured and a non-empty employees
list, the sequence returned to the caller is exactly the JSON value the
provider's response text parses to — unconstrained in length and shape —
and, when the provider call or the parse fails, a single static warning
item embedding the failure message. -/
theorem analyze_passthrough (apiKey : Option String)
    (employees : List EmpSummary) (provider : String → Except String Json)
    (hcred : clientConfigured apiKey = true) (hne : employees ≠ []) :
    (∀ j, provider (analysisPrompt employees) = .ok j →
        analyze_compliance apiKey employees provider
          = { body := j, providerCalled := true })
    ∧ ∀ msg, provider (analysisPrompt employees) = .error msg →
        analyze_compliance apiKey employees provider
          = { body := .arr [analyzeWarningItem msg], providerCalled := true } := by
  have hie : employees.isEmpty = false := by
    cases employees with
    | nil => exact absurd rfl hne
    | cons x xs => rfl
  constructor
  · intro j hj; simp [analyze_compliance, hcred, hie, hj]
  · intro msg hm; simp [analyze_compliance, hcred, hie, hm]

theorem analyze_passthrough_witness :
    analyze_compliance (some "k") [riskyEmp] (fun _ => Except.ok (Json.arr []))
      = { body := Json.arr [], providerCalled := true } :=
  (analyze_passthrough (some "k") [riskyEmp] (fun _ => Except.ok (Json.arr []))
    rfl (by simp)).1 (Json.arr []) rfl

/-- C4: in the at-risk filter of POST /api/analyze, an employee dict with
both totals present is selected iff its status is `"在職中"`, its
`grantedTotal` is at least 10 and its `usedTotal` is strictly below 5; on
the spec's example pair exactly the first summary is selected. -/
theorem risk_threshold (e : EmpSummary) (g u : Rat)
    (hg : e.grantedTotal = some g) (hu : e.usedTotal = some u) :
    (isRiskEmployee e = true ↔ (e.status = some "在職中" ∧ 10 ≤ g ∧ u < 5))
    ∧ riskEmployees [riskyEmp, retiredEmp] = [riskyEmp] := by
  constructor
  · simp [isRiskEmployee, hg, hu, and_assoc]
  · rfl

theorem risk_threshold_witness :
    (isRiskEmployee riskyEmp = true
      ↔ (riskyEmp.status = some "在職中" ∧ 10 ≤ (12:Rat) ∧ (2:Rat) < 5))
    ∧ riskEmployees [riskyEmp, retiredEmp] = [riskyEmp] :=
  risk_threshold riskyEmp 12 2 rfl rfl

/-- C10: the `.get` defaults of the at-risk filter: with status `"在職中"`,
a missing `grantedTotal` (defaulting to 0) bars selection; a
`grantedTotal ≥ 10` with missing `usedTotal` (defaulting to 0) forces
selection; a summary with no status key is never selected. -/
theorem risk_filter_defaults :
    (∀ e : EmpSummary, e.status = some "在職中" → e.grantedTotal = none →
        isRiskEmployee e = false)
    ∧ (∀ (e : EmpSummary) (g : Rat), e.status = some "在職中" →
        e.grantedTotal = some g → 10 ≤ g → e.usedTotal = none →
        isRiskEmployee e = true)
    ∧ (∀ e : EmpSummary, e.status = none → isRiskEmployee e = false) := by
  refine ⟨?_, ?_, ?_⟩
  · intro e hs hg
    have h0 : (decide ((10:Rat) ≤ 0)) = false := by decide
    simp [isRiskEmployee, hs, hg, h0]
  · intro e g hs hg hge hu
    have h5 : (decide ((0:Rat) < 5)) = true := by decide
    simp [isRiskEmployee, hs, hg, hu, hge, h5]
  · intro e hs
    have hb : ((none : Option String) == some "在職中") = false := rfl
    simp [isRiskEmployee, hs, hb]

theorem risk_filter_defaults_witness :
    isRiskEmployee sEmpNoGranted = false
    ∧ isRiskEmployee sEmpNoUsed = true
    ∧ isRiskEmployee sEmpNoStatus = false :=
  ⟨risk_filter_defaults.1 sEmpNoGranted rfl rfl,
    risk_filter_defaults.2.1 sEmpNoUsed 12 rfl rfl (by norm_num) rfl,
    risk_filter_defaults.2.2 sEmpNoStatus rfl⟩
